import Mathlib

/-!
Verification of the core stress and monitoring engine of the
Pi-Under-Pressure stress-testing tool.  The Rust sources are shallowly
embedded: machine integers (`u32`, `u64`, `usize`) are `Nat` with an
explicit `% 2 ^ 32` / `% 2 ^ 64` where wrapping matters, `f32` temperature
and usage values are modelled as `ℚ`, effects that the code obtains from
the outside world (random numbers, file I/O outcomes, floating-point
oracle verdicts) are supplied by explicit environment records, and each
worker loop is a state-passing function of the number of iterations it
executes before it observes the shared shutdown flag unset.
-/

/- ------------------------------------------------------------------
`src/system/monitor.rs`: the decoded throttle register.
------------------------------------------------------------------- -/

/-- `ThrottleStatus` of `src/system/monitor.rs`: the eight decoded flags
plus the raw 32-bit register value. -/
structure ThrottleStatus where
  under_voltage_now : Bool
  freq_capped_now : Bool
  throttled_now : Bool
  soft_temp_limit_now : Bool
  under_voltage_occurred : Bool
  freq_capped_occurred : Bool
  throttled_occurred : Bool
  soft_temp_limit_occurred : Bool
  raw_value : Nat
  deriving DecidableEq

/-- `ThrottleStatus::from_raw`: each flag is `(raw & (1 << k)) != 0` for its
bit position `k`; the raw value is a `u32`, so `raw < 2 ^ 32` in the
program, but the definition is total over `Nat`. -/
def ThrottleStatus.from_raw (raw : Nat) : ThrottleStatus where
  under_voltage_now := raw &&& (1 <<< 0) != 0
  freq_capped_now := raw &&& (1 <<< 1) != 0
  throttled_now := raw &&& (1 <<< 2) != 0
  soft_temp_limit_now := raw &&& (1 <<< 3) != 0
  under_voltage_occurred := raw &&& (1 <<< 16) != 0
  freq_capped_occurred := raw &&& (1 <<< 17) != 0
  throttled_occurred := raw &&& (1 <<< 18) != 0
  soft_temp_limit_occurred := raw &&& (1 <<< 19) != 0
  raw_value := raw

/-- `ThrottleStatus::has_any_current_issue`. -/
def ThrottleStatus.has_any_current_issue (s : ThrottleStatus) : Bool :=
  s.under_voltage_now || s.freq_capped_now || s.throttled_now || s.soft_temp_limit_now

/-- `ThrottleStatus::has_any_historical_issue`. -/
def ThrottleStatus.has_any_historical_issue (s : ThrottleStatus) : Bool :=
  s.under_voltage_occurred || s.freq_capped_occurred || s.throttled_occurred ||
    s.soft_temp_limit_occurred

/- ------------------------------------------------------------------
`src/stress/mod.rs` lines 162, 193-206: the monitoring loop's throttle
and under-voltage event counting, as a fold over the successive raw
register values it samples.
------------------------------------------------------------------- -/

/-- The monitoring loop's event-counting state: `throttle_events`,
`under_voltage_events` and `last_throttle_raw` of `run_stress_test`. -/
structure ThrottleEventState where
  throttle_events : Nat
  under_voltage_events : Nat
  last_throttle_raw : Nat
  deriving DecidableEq

/-- Initial state: both counters `0`, `last_throttle_raw = 0`. -/
def initialThrottleEventState : ThrottleEventState :=
  { throttle_events := 0, under_voltage_events := 0, last_throttle_raw := 0 }

/-- One sampling tick of `run_stress_test` restricted to its throttle-event
tracking (`src/stress/mod.rs` lines 193-206): on a changed raw value the
throttle counter is bumped when `throttled_now`, `freq_capped_now` or
`soft_temp_limit_now` is set, and the under-voltage counter is bumped when
`under_voltage_now` is set. -/
def throttle_event_tick (s : ThrottleEventState) (current_throttle : Nat) :
    ThrottleEventState :=
  let st := ThrottleStatus.from_raw current_throttle
  let throttle_events :=
    if current_throttle != s.last_throttle_raw &&
        (st.throttled_now || st.freq_capped_now || st.soft_temp_limit_now) then
      s.throttle_events + 1
    else s.throttle_events
  let under_voltage_events :=
    if current_throttle != s.last_throttle_raw && st.under_voltage_now then
      s.under_voltage_events + 1
    else s.under_voltage_events
  { throttle_events := throttle_events, under_voltage_events := under_voltage_events,
    last_throttle_raw := current_throttle }

/-- The monitoring loop's event counting over a whole run: a fold of
`throttle_event_tick` over the sequence of raw register values observed at
the successive sampling ticks. -/
def run_throttle_ticks (raws : List Nat) : ThrottleEventState :=
  raws.foldl throttle_event_tick initialThrottleEventState

/-- Spec-side description of one counted throttle event (amended to the
code's behaviour): the raw value differs from the previous tick's value and
at least one of bits 1-3 (frequency-capped, throttled, soft-limit) is set
in the new value.  `p.1` is the previous raw value, `p.2` the new one. -/
def throttle_transition_counted (p : Nat × Nat) : Bool :=
  (p.2 != p.1) && (p.2.testBit 1 || p.2.testBit 2 || p.2.testBit 3)

/-- Spec-side description of one counted under-voltage event: the raw value
differs from the previous tick's value and bit 0 is set in the new value. -/
def under_voltage_transition_counted (p : Nat × Nat) : Bool :=
  (p.2 != p.1) && p.2.testBit 0

/-- The (previous, current) pairs a sequence of sampled raw values presents
to `throttle_event_tick`, the first tick comparing against the initial
`last_throttle_raw = 0`. -/
def tick_transitions (raws : List Nat) : List (Nat × Nat) :=
  (0 :: raws).zip raws

/- ------------------------------------------------------------------
`src/stress/mod.rs` lines 45-75 and 281-313: `TestResult`, `FinalReport`
and `generate_report`.
------------------------------------------------------------------- -/

/-- `TestResult` of `src/stress/mod.rs`.  The `u64`/`u32` counters are
`Nat`; the `f32` temperatures are `ℚ`. -/
structure TestResult where
  cpu_errors : Nat
  memory_errors : Nat
  nvme_errors : Nat
  video_errors : Nat
  throttle_events : Nat
  under_voltage_events : Nat
  max_cpu_temp : ℚ
  avg_cpu_temp : ℚ
  max_nvme_temp : Option ℚ
  completed : Bool
  duration_secs : Nat
  deriving DecidableEq

/-- `FinalReport` of `src/stress/mod.rs`. -/
structure FinalReport where
  passed : Bool
  duration_secs : Nat
  cpu_stress_passed : Bool
  memory_stress_passed : Bool
  nvme_stress_passed : Bool
  video_stress_passed : Bool
  max_cpu_temp : ℚ
  avg_cpu_temp : ℚ
  max_nvme_temp : Option ℚ
  throttle_events : Nat
  under_voltage_events : Nat
  io_errors : Nat
  smart_warnings : Nat
  deriving DecidableEq

/-- `generate_report` of `src/stress/mod.rs` lines 281-313.  `io_errors` is
the externally collected list of matched I/O-error log lines; the report
stores its length cast to `u32` (`io_errors.len() as u32`, hence the
`% 2 ^ 32`).  The unused `_duration` argument of the Rust function is kept.
`smart_warnings` is the literal `0` of the source. -/
def generate_report (result : TestResult) (io_errors : List String)
    (_duration : Nat) : FinalReport :=
  let cpu_passed := result.cpu_errors == 0
  let memory_passed := result.memory_errors == 0
  let nvme_passed := result.nvme_errors == 0 && io_errors.isEmpty
  let video_passed := result.video_errors == 0
  let passed := cpu_passed && memory_passed && nvme_passed && video_passed &&
    result.throttle_events == 0 && result.under_voltage_events == 0
  { passed := passed
    duration_secs := result.duration_secs
    cpu_stress_passed := cpu_passed
    memory_stress_passed := memory_passed
    nvme_stress_passed := nvme_passed
    video_stress_passed := video_passed
    max_cpu_temp := result.max_cpu_temp
    avg_cpu_temp := result.avg_cpu_temp
    max_nvme_temp := result.max_nvme_temp
    throttle_events := result.throttle_events
    under_voltage_events := result.under_voltage_events
    io_errors := io_errors.length % 2 ^ 32
    smart_warnings := 0 }

/-- A `TestResult` with every counter zero, used as a concrete input. -/
def cleanResult : TestResult :=
  { cpu_errors := 0, memory_errors := 0, nvme_errors := 0, video_errors := 0,
    throttle_events := 0, under_voltage_events := 0, max_cpu_temp := 0,
    avg_cpu_temp := 0, max_nvme_temp := none, completed := true,
    duration_secs := 60 }

/- ------------------------------------------------------------------
`src/system/monitor.rs` lines 226-289: `CpuStatSnapshot` and its per-core
usage calculation.
------------------------------------------------------------------- -/

/-- One per-core line of `/proc/stat` as `CpuStatSnapshot::read` stores it:
the `(user, nice, system, idle, iowait, irq, softirq)` cumulative jiffie
counters, `u64` each. -/
structure CpuCoreStat where
  user : Nat
  nice : Nat
  system : Nat
  idle : Nat
  iowait : Nat
  irq : Nat
  softirq : Nat
  deriving DecidableEq

/-- `CpuStatSnapshot` of `src/system/monitor.rs`: the per-core counters
read at one instant. -/
structure CpuStatSnapshot where
  cores : List CpuCoreStat
  deriving DecidableEq

/-- `u64` wrap-around. -/
def wrap64 (n : Nat) : Nat := n % 2 ^ 64

/-- Wrapping `u64` subtraction `a - b` (release-build semantics of the
`total_diff - idle_diff` subtraction in `calculate_usage`, which is not
checked against underflow). -/
def wsub64 (a b : Nat) : Nat := (2 ^ 64 + a - b) % 2 ^ 64

/-- The `curr_total`/`prev_total` binding of `calculate_usage`: the chained
`u64` sum of all seven counters (a chain of wrapping adds is the plain sum
mod `2 ^ 64`). -/
def core_total (c : CpuCoreStat) : Nat :=
  wrap64 (c.user + c.nice + c.system + c.idle + c.iowait + c.irq + c.softirq)

/-- The `curr_idle`/`prev_idle` binding of `calculate_usage`:
`idle + iowait` as a `u64` sum. -/
def core_idle (c : CpuCoreStat) : Nat := wrap64 (c.idle + c.iowait)

/-- The loop body of `CpuStatSnapshot::calculate_usage` for one core
(`src/system/monitor.rs` lines 264-281): saturating deltas against the
previous snapshot's core (`u64::saturating_sub` is `Nat` subtraction), then
`(total_diff - idle_diff) as f32 / total_diff as f32 * 100`, clamped to
`[0, 100]`, when `total_diff > 0`, else `0`.  The `f32` arithmetic is
modelled exactly over `ℚ`; `clamp(0.0, 100.0)` is `min (max x 0) 100`. -/
def core_usage (curr prev_core : CpuCoreStat) : ℚ :=
  let total_diff := core_total curr - core_total prev_core
  let idle_diff := core_idle curr - core_idle prev_core
  if total_diff > 0 then
    min (max (((wsub64 total_diff idle_diff : Nat) : ℚ) / (total_diff : ℚ) * 100) 0) 100
  else 0

/-- `CpuStatSnapshot::calculate_usage`: `for (i, curr) in
self.cores.iter().enumerate()`, pair with `prev.cores.get(i)`, push the
core's usage when the previous snapshot has core `i` and `0.0` when it does
not. -/
def CpuStatSnapshot.calculate_usage (self prev : CpuStatSnapshot) : List ℚ :=
  self.cores.enum.map fun ic =>
    match prev.cores[ic.1]? with
    | some prev_core => core_usage ic.2 prev_core
    | none => 0

/-- Spec-side plain (unwrapped) total of a core's seven jiffie counters. -/
def total_jiffies (c : CpuCoreStat) : Nat :=
  c.user + c.nice + c.system + c.idle + c.iowait + c.irq + c.softirq

/-- Spec-side plain idle time of a core: `idle + iowait`. -/
def idle_jiffies (c : CpuCoreStat) : Nat := c.idle + c.iowait

/-- A one-core snapshot used as a concrete input: 5 user jiffies, all other
counters zero. -/
def snapIdentical : CpuStatSnapshot := ⟨[⟨5, 0, 0, 0, 0, 0, 0⟩]⟩

/- ------------------------------------------------------------------
`src/stress/cpu.rs` lines 128-154: the prime-sieve oracle.  The
`Vec<bool>` `is_prime` of length `LIMIT + 1` is embedded as a bit vector:
a `Nat` whose bit `j` is `is_prime[j]`.
------------------------------------------------------------------- -/

/-- `LIMIT` of `run_prime_stress`. -/
def LIMIT : Nat := 100000

/-- `vec![true; LIMIT + 1]` on the bit vector: all `LIMIT + 1` bits set. -/
def allTrue : Nat := (1 <<< (LIMIT + 1)) - 1

/-- `is_prime[j] = false` on the bit vector: clear bit `j` (keep every bit
of the `LIMIT + 1`-wide vector except bit `j`). -/
def clear_bit (a j : Nat) : Nat := a &&& (allTrue ^^^ (1 <<< j))

/-- The inner loop `while j <= LIMIT { is_prime[j] = false; j += i; }` of
`run_prime_stress`, with explicit fuel; the guard exits the loop within
`LIMIT + 1` iterations for any step `i ≥ 1`. -/
def mark_multiples (i : Nat) : Nat → Nat → Nat → Nat
  | 0, _, a => a
  | fuel + 1, j, a =>
    if j ≤ LIMIT then mark_multiples i fuel (j + i) (clear_bit a j) else a

/-- The outer loop `while i * i <= LIMIT { if is_prime[i] { mark }; i += 1 }`
of `run_prime_stress`, with explicit fuel; starting from `i = 2` the guard
exits at `i = 317`, so fuel `317` covers the whole run. -/
def sieve_loop : Nat → Nat → Nat → Nat
  | 0, _, a => a
  | fuel + 1, i, a =>
    if i * i ≤ LIMIT then
      if a.testBit i then
        sieve_loop fuel (i + 1) (mark_multiples i (LIMIT + 1) (i * i) a)
      else
        sieve_loop fuel (i + 1) a
    else a

/-- `is_prime.iter().filter(|&&p| p).count()` on the bit vector: the number
of set bits. -/
def count_set_bits (n : Nat) : Nat :=
  if h : n = 0 then 0
  else n % 2 + count_set_bits (n / 2)
termination_by n
decreasing_by exact Nat.div_lt_self (Nat.pos_of_ne_zero h) (by norm_num)

/-- `run_prime_stress` of `src/stress/cpu.rs`: sieve of Eratosthenes up to
`LIMIT`, then compare the prime count against 9592. -/
def run_prime_stress : Bool :=
  let is_prime := allTrue
  let is_prime := clear_bit is_prime 0
  let is_prime := clear_bit is_prime 1
  let is_prime := sieve_loop 317 2 is_prime
  let prime_count := count_set_bits is_prime
  prime_count == 9592

/- Computation-friendly companions of the sieve, proved equal to the
faithful loops above and used only so that the kernel can evaluate the
sieve with logarithmic recursion depth. -/

/-- Mask with the `cnt` bits `0, p, 2p, …, (cnt - 1) * p` set, built by
binary doubling (`cnt < 2 ^ fuel`); recursion depth `fuel`. -/
def stride_mask (p : Nat) : Nat → Nat → Nat
  | 0, _ => 0
  | fuel + 1, cnt =>
    if cnt = 0 then 0
    else
      let h := stride_mask p fuel (cnt / 2)
      let d := h ||| (h <<< (p * (cnt / 2)))
      if cnt % 2 = 1 then d ||| (1 <<< (p * (cnt - 1))) else d

/-- One-step replacement for `mark_multiples i _ (i * i) a`: clear the bits
`i*i, i*i + i, …` up to `LIMIT` with a single mask. -/
def clear_multiples (i a : Nat) : Nat :=
  let cnt := (LIMIT - i * i) / i + 1
  a &&& (allTrue ^^^ (stride_mask i 17 cnt <<< (i * i)))

/-- The outer sieve loop with `clear_multiples` in place of
`mark_multiples`. -/
def sieve_loop_fast : Nat → Nat → Nat → Nat
  | 0, _, a => a
  | fuel + 1, i, a =>
    if i * i ≤ LIMIT then
      if a.testBit i then
        sieve_loop_fast fuel (i + 1) (clear_multiples i a)
      else
        sieve_loop_fast fuel (i + 1) a
    else a

/-- Tree-shaped population count: for `n < 2 ^ 2 ^ k`, `pop_tree k n` is
the number of set bits of `n`, with recursion depth `k`. -/
def pop_tree : Nat → Nat → Nat
  | 0, n => n
  | k + 1, n => pop_tree k (n >>> 2 ^ k) + pop_tree k (n &&& ((1 <<< 2 ^ k) - 1))

/- ------------------------------------------------------------------
`src/stress/cpu.rs` lines 9-40, `src/stress/memory.rs` lines 10-45 and
`src/stress/nvme.rs` lines 20-64: the workload runner loops.  Each loop
reads the shared shutdown flag at the top of every iteration; a run in
which the flag is seen unset `n` times executes exactly `n` iterations,
and the shared error counter (only ever `fetch_add(1)`-ed by this runner)
is modelled as the `Nat` it has reached.  The verdicts of the impure
oracles (floating-point, rng-seeded or I/O-backed) are supplied by an
environment; the deterministic prime sieve is embedded concretely.
------------------------------------------------------------------- -/

/-- Number of multiples of `i` marked by `mark_multiples` starting at `j`:
the count of indices `j, j+i, j+2i, ...` that are `≤ LIMIT`. -/
def markCnt (i j : Nat) : Nat := if j ≤ LIMIT then (LIMIT - j) / i + 1 else 0

/-- Oracle outcomes the compute runner observes: the verdicts of
`run_dft_stress`, `run_matrix_stress` (both `f64` computations) and
`run_aes_stress` (rng-seeded) at each iteration. -/
structure CpuStressEnv where
  dft_ok : Nat → Bool
  matrix_ok : Nat → Bool
  aes_ok : Nat → Bool

/-- The verdict of iteration `iteration` of `run_cpu_stress`: `match
iteration % 4` dispatches to the DFT, matrix, prime-sieve and AES oracles,
rendered as the equivalent chain of equality tests (`iteration % 4 < 4`,
so the final case is the `3` arm and the `_ => unreachable!()` arm cannot
be hit). -/
def cpu_iter_verdict (env : CpuStressEnv) (iteration : Nat) : Bool :=
  if iteration % 4 = 0 then env.dft_ok iteration
  else if iteration % 4 = 1 then env.matrix_ok iteration
  else if iteration % 4 = 2 then run_prime_stress
  else env.aes_ok iteration

/-- The compute error counter after `n` iterations of `run_cpu_stress`:
`fetch_add(1)` exactly on a failed oracle, then straight to the next
iteration. -/
def run_cpu_stress (env : CpuStressEnv) : Nat → Nat
  | 0 => 0
  | n + 1 => run_cpu_stress env n + (if cpu_iter_verdict env n then 0 else 1)

/- ------------------------------------------------------------------
Memory stress sizing (`src/stress/mod.rs` lines 111-130,
`src/stress/memory.rs` lines 5-15) and the memory runner loop.
------------------------------------------------------------------- -/

/-- `MIN_CHUNK_SIZE` of `src/stress/memory.rs`: 64 MiB. -/
def MIN_CHUNK_SIZE : Nat := 64 * 1024 * 1024

/-- `let num_mem_threads = 2.min(config.threads)` of `run_stress_test`. -/
def num_mem_threads (threads : Nat) : Nat := min 2 threads

/-- `let allocation_per_thread = (total_mb as usize * 1024 * 1024 / 2) /
num_mem_threads` of `run_stress_test` (`usize` is 64-bit, hence the wrap;
the Rust division would panic for `threads = 0`, so the theorems assume
`1 ≤ threads`). -/
def allocation_per_thread (total_mb threads : Nat) : Nat :=
  wrap64 (total_mb * 1024 * 1024) / 2 / num_mem_threads threads

/-- `let alloc_size = allocation_bytes.max(MIN_CHUNK_SIZE)` of
`run_memory_stress`. -/
def alloc_size (allocation_bytes : Nat) : Nat :=
  max allocation_bytes MIN_CHUNK_SIZE

/-- Oracle outcomes the memory runner observes: the verdicts of the
sequential, random-access, fill/verify and STREAM oracles at each
iteration (each reads and writes the thread's private buffer and the rng,
and returns a `bool`). -/
structure MemStressEnv where
  sequential_ok : Nat → Bool
  random_ok : Nat → Bool
  fill_ok : Nat → Bool
  stream_ok : Nat → Bool

/-- The verdict of iteration `iteration` of `run_memory_stress`: `match
iteration % 4` dispatches to the four memory oracles, rendered as the
equivalent chain of equality tests. -/
def mem_iter_verdict (env : MemStressEnv) (iteration : Nat) : Bool :=
  if iteration % 4 = 0 then env.sequential_ok iteration
  else if iteration % 4 = 1 then env.random_ok iteration
  else if iteration % 4 = 2 then env.fill_ok iteration
  else env.stream_ok iteration

/-- State of one memory stress thread: its error count and the length of
its private buffer. -/
structure MemRunState where
  errors : Nat
  buffer_len : Nat
  deriving DecidableEq

/-- `run_memory_stress` after `n` iterations: the buffer is allocated once
before the loop (`vec![0; alloc_size]` with
`alloc_size = allocation_bytes.max(MIN_CHUNK_SIZE)`), and the loop hands it
to the oracles as a `&mut [u8]` slice, whose length cannot change. -/
def run_memory_stress (env : MemStressEnv) (allocation_bytes : Nat) :
    Nat → MemRunState
  | 0 => { errors := 0, buffer_len := alloc_size allocation_bytes }
  | n + 1 =>
    let s := run_memory_stress env allocation_bytes n
    { errors := s.errors + (if mem_iter_verdict env n then 0 else 1),
      buffer_len := s.buffer_len }

/- ------------------------------------------------------------------
`src/stress/nvme.rs` lines 20-64: the storage runner.
------------------------------------------------------------------- -/

/-- The four shared per-category error counters of `run_stress_test`; each
runner holds a clone of the `Arc` of its own counter only. -/
structure ErrorCounters where
  cpu_errors : Nat
  memory_errors : Nat
  nvme_errors : Nat
  video_errors : Nat
  deriving DecidableEq

/-- Outcomes the storage runner observes: whether `create_test_file`
succeeds, and the verdicts of the 4K-random, sequential and mixed I/O
oracles at each iteration. -/
structure NvmeStressEnv where
  create_test_file_ok : Bool
  random_4k_ok : Nat → Bool
  sequential_io_ok : Nat → Bool
  mixed_ok : Nat → Bool

/-- The verdict of iteration `iteration` of `run_nvme_stress`'s loop:
`match iteration % 3` dispatches to the three storage oracles, rendered as
the equivalent chain of equality tests. -/
def nvme_iter_verdict (env : NvmeStressEnv) (iteration : Nat) : Bool :=
  if iteration % 3 = 0 then env.random_4k_ok iteration
  else if iteration % 3 = 1 then env.sequential_io_ok iteration
  else env.mixed_ok iteration

/-- The storage error counter contribution of `n` loop iterations. -/
def nvme_loop_errors (env : NvmeStressEnv) : Nat → Nat
  | 0 => 0
  | n + 1 => nvme_loop_errors env n + (if nvme_iter_verdict env n then 0 else 1)

/-- `run_nvme_stress`: when `create_test_file` fails, the runner does one
`errors.fetch_add(1)` and returns before entering its loop; otherwise the
loop runs (here: `n` iterations before shutdown).  Returns the shared
counters as this runner leaves them (it holds only the storage counter)
and the number of loop iterations executed. -/
def run_nvme_stress (env : NvmeStressEnv) (c : ErrorCounters) (n : Nat) :
    ErrorCounters × Nat :=
  if env.create_test_file_ok then
    ({ c with nvme_errors := c.nvme_errors + nvme_loop_errors env n }, n)
  else
    ({ c with nvme_errors := c.nvme_errors + 1 }, 0)

/- ------------------------------------------------------------------
`src/stress/memory.rs` lines 64-88: the random-access memory oracle.
------------------------------------------------------------------- -/

/-- `ITERATIONS` of `run_random_access_stress`. -/
def ITERATIONS : Nat := 100000

/-- The random values `run_random_access_stress` draws: write offsets,
written bytes (`rng.gen::<u8>()`, stored mod 256) and read offsets.  The
program draws offsets with `rng.gen_range(0..len)`, so they are always in
range; an out-of-range offset in the environment makes the write a no-op
and the read yield the default 0. -/
structure RandomAccessEnv where
  write_idx : Nat → Nat
  write_val : Nat → Nat
  read_idx : Nat → Nat

/-- The write phase of `run_random_access_stress`: `ITERATIONS` random
single-byte writes into the buffer. -/
def random_writes (env : RandomAccessEnv) (buffer : List Nat) : List Nat :=
  (List.range ITERATIONS).foldl
    (fun buf k => buf.set (env.write_idx k) (env.write_val k % 256)) buffer

/-- The read phase of `run_random_access_stress`: `ITERATIONS` random
reads accumulated with `u64` `wrapping_add` into a checksum that starts
at 0. -/
def random_reads_checksum (env : RandomAccessEnv) (buffer : List Nat) : Nat :=
  (List.range ITERATIONS).foldl
    (fun checksum k => wrap64 (checksum + buffer.getD (env.read_idx k) 0)) 0

/-- `run_random_access_stress`: the write phase, the read-checksum phase,
then the verdict `checksum > 0 || buffer.iter().all(|&b| b == 0)` over the
written buffer.  Returns the verdict together with the buffer as the
in-place writes leave it. -/
def run_random_access_stress (env : RandomAccessEnv) (buffer : List Nat) :
    Bool × List Nat :=
  let buf := random_writes env buffer
  let checksum := random_reads_checksum env buf
  (decide (checksum > 0) || buf.all (fun b => b == 0), buf)

/- Concrete environments used as witness inputs. -/

/-- A storage environment whose `create_test_file` fails and whose oracles
would all pass. -/
def nvmeEnvCreateFails : NvmeStressEnv :=
  { create_test_file_ok := false, random_4k_ok := fun _ => true,
    sequential_io_ok := fun _ => true, mixed_ok := fun _ => true }

/-- A storage environment whose `create_test_file` succeeds and whose
oracles all pass. -/
def nvmeEnvAllPass : NvmeStressEnv :=
  { create_test_file_ok := true, random_4k_ok := fun _ => true,
    sequential_io_ok := fun _ => true, mixed_ok := fun _ => true }

/-- All four shared counters at zero. -/
def countersZero : ErrorCounters :=
  { cpu_errors := 0, memory_errors := 0, nvme_errors := 0, video_errors := 0 }

/-- A random-access environment that always draws offset 0 and byte 0. -/
def raEnvZero : RandomAccessEnv :=
  { write_idx := fun _ => 0, write_val := fun _ => 0, read_idx := fun _ => 0 }

/-- A compute environment whose impure oracles all pass. -/
def cpuEnvAllPass : CpuStressEnv :=
  { dft_ok := fun _ => true, matrix_ok := fun _ => true, aes_ok := fun _ => true }

/- ------------------------------------------------------------------
Helper lemmas.
------------------------------------------------------------------- -/

/-- The code's flag test `(raw & (1 << k)) != 0` is `Nat.testBit raw k`. -/
theorem land_one_shiftLeft_bne_zero (n k : Nat) :
    (n &&& (1 <<< k) != 0) = n.testBit k := by
  rw [Nat.one_shiftLeft, Nat.and_two_pow]
  cases h : n.testBit k
  · simp
  · simp [Nat.pow_eq_zero]

/-- Fold characterization of the monitoring loop's two event counters, for
an arbitrary starting state. -/
theorem run_throttle_fold_characterization (raws : List Nat)
    (s : ThrottleEventState) :
    (raws.foldl throttle_event_tick s).throttle_events =
      s.throttle_events +
        ((s.last_throttle_raw :: raws).zip raws).countP throttle_transition_counted ∧
    (raws.foldl throttle_event_tick s).under_voltage_events =
      s.under_voltage_events +
        ((s.last_throttle_raw :: raws).zip raws).countP under_voltage_transition_counted := by
  induction raws generalizing s with
  | nil => simp
  | cons r rest ih =>
    have hcond : ((ThrottleStatus.from_raw r).throttled_now ||
        (ThrottleStatus.from_raw r).freq_capped_now ||
        (ThrottleStatus.from_raw r).soft_temp_limit_now) =
        (r.testBit 1 || r.testBit 2 || r.testBit 3) := by
      simp only [ThrottleStatus.from_raw, land_one_shiftLeft_bne_zero]
      cases r.testBit 1 <;> cases r.testBit 2 <;> cases r.testBit 3 <;> rfl
    have huv : (ThrottleStatus.from_raw r).under_voltage_now = r.testBit 0 := by
      simp only [ThrottleStatus.from_raw, land_one_shiftLeft_bne_zero]
    obtain ⟨ih₁, ih₂⟩ := ih (throttle_event_tick s r)
    constructor
    · rw [List.foldl_cons, ih₁]
      simp only [List.zip_cons_cons, List.countP_cons, throttle_event_tick,
        throttle_transition_counted, hcond]
      split_ifs <;> omega
    · rw [List.foldl_cons, ih₂]
      simp only [List.zip_cons_cons, List.countP_cons, throttle_event_tick,
        under_voltage_transition_counted, huv]
      split_ifs <;> omega

/-- A step-wise non-decreasing `Nat` sequence is monotone. -/
theorem nat_mono_of_step (g : Nat → Nat) (hstep : ∀ k, g k ≤ g (k + 1)) :
    ∀ n m : Nat, n ≤ m → g n ≤ g m := by
  intro n m h
  induction h with
  | refl => exact le_rfl
  | step _ ih => exact le_trans ih (hstep _)

/-- The compute error counter counts the failed iterations below `n`. -/
theorem run_cpu_stress_eq_countP (env : CpuStressEnv) (n : Nat) :
    run_cpu_stress env n =
      (List.range n).countP (fun i => !cpu_iter_verdict env i) := by
  induction n with
  | zero => rfl
  | succ n ih =>
    rw [List.range_succ, List.countP_append]
    simp only [run_cpu_stress, ih, List.countP_cons, List.countP_nil]
    cases h : cpu_iter_verdict env n <;> simp [h]

/-- The memory error counter counts the failed iterations below `n`. -/
theorem run_memory_stress_errors_eq_countP (env : MemStressEnv) (ab n : Nat) :
    (run_memory_stress env ab n).errors =
      (List.range n).countP (fun i => !mem_iter_verdict env i) := by
  induction n with
  | zero => rfl
  | succ n ih =>
    rw [List.range_succ, List.countP_append]
    simp only [run_memory_stress, ih, List.countP_cons, List.countP_nil]
    cases h : mem_iter_verdict env n <;> simp [h]

/-- The memory thread's buffer length never changes after its one
allocation. -/
theorem run_memory_stress_buffer_len (env : MemStressEnv) (ab n : Nat) :
    (run_memory_stress env ab n).buffer_len = alloc_size ab := by
  induction n with
  | zero => rfl
  | succ n ih => simpa [run_memory_stress] using ih

/-- The storage loop's error contribution counts the failed iterations
below `n`. -/
theorem nvme_loop_errors_eq_countP (env : NvmeStressEnv) (n : Nat) :
    nvme_loop_errors env n =
      (List.range n).countP (fun i => !nvme_iter_verdict env i) := by
  induction n with
  | zero => rfl
  | succ n ih =>
    rw [List.range_succ, List.countP_append]
    simp only [nvme_loop_errors, ih, List.countP_cons, List.countP_nil]
    cases h : nvme_iter_verdict env n <;> simp [h]

/-- A fold of wrapping `u64` additions is the plain sum mod `2 ^ 64`. -/
theorem foldl_wrap_add (f : Nat → Nat) (l : List Nat) (c : Nat) :
    l.foldl (fun a k => wrap64 (a + f k)) (c % 2 ^ 64) =
      (c + (l.map f).sum) % 2 ^ 64 := by
  induction l generalizing c with
  | nil => simp
  | cons k rest ih =>
    simp only [List.foldl_cons, List.map_cons, List.sum_cons]
    have h1 : wrap64 (c % 2 ^ 64 + f k) = (c + f k) % 2 ^ 64 := by
      unfold wrap64
      omega
    rw [h1, ih (c + f k), Nat.add_assoc]

/-- The read checksum is the plain sum of the read bytes, mod `2 ^ 64`. -/
theorem random_reads_checksum_eq_sum (env : RandomAccessEnv)
    (buffer : List Nat) :
    random_reads_checksum env buffer =
      ((List.range ITERATIONS).map
        (fun k => buffer.getD (env.read_idx k) 0)).sum % 2 ^ 64 := by
  have h := foldl_wrap_add (fun k => buffer.getD (env.read_idx k) 0)
    (List.range ITERATIONS) 0
  simpa [random_reads_checksum] using h

/-- Writing only zero bytes into an all-zero buffer keeps it all zero. -/
theorem random_writes_all_zero (env : RandomAccessEnv) (buffer : List Nat)
    (hbuf : ∀ b ∈ buffer, b = 0) (hval : ∀ k, env.write_val k % 256 = 0) :
    ∀ b ∈ random_writes env buffer, b = 0 := by
  unfold random_writes
  generalize List.range ITERATIONS = l
  induction l generalizing buffer with
  | nil => simpa using hbuf
  | cons k rest ih =>
    rw [List.foldl_cons]
    refine ih _ ?_
    intro b hb
    rcases List.mem_or_eq_of_mem_set hb with h | h
    · exact hbuf b h
    · rw [h, hval k]

/-- `getD` over an all-zero list yields 0 at every index. -/
theorem getD_zero_of_all_zero (l : List Nat) (h : ∀ b ∈ l, b = 0) (i : Nat) :
    l.getD i 0 = 0 := by
  rcases hx : l[i]? with _ | x
  · simp [List.getD_eq_getElem?_getD, hx]
  · have hmem : x ∈ l := List.getElem?_mem hx
    simp [List.getD_eq_getElem?_getD, hx, h x hmem]

/-- Evaluation of `core_usage` against the spec's formula, for counters
that do not wrap (`total_jiffies < 2 ^ 64` on both snapshots) and a
saturating idle delta at most the saturating total delta. -/
theorem core_usage_spec (curr p : CpuCoreStat)
    (h1 : total_jiffies curr < 2 ^ 64) (h2 : total_jiffies p < 2 ^ 64)
    (hle : idle_jiffies curr - idle_jiffies p ≤
      total_jiffies curr - total_jiffies p) :
    core_usage curr p =
      if total_jiffies curr - total_jiffies p = 0 then 0
      else
        min (max (100 * (1 - ((idle_jiffies curr - idle_jiffies p : Nat) : ℚ) /
          ((total_jiffies curr - total_jiffies p : Nat) : ℚ))) 0) 100 := by
  have hA : core_total curr = total_jiffies curr := Nat.mod_eq_of_lt h1
  have hB : core_total p = total_jiffies p := Nat.mod_eq_of_lt h2
  have hC : core_idle curr = idle_jiffies curr := by
    have : idle_jiffies curr < 2 ^ 64 := by
      unfold idle_jiffies total_jiffies at *
      omega
    exact Nat.mod_eq_of_lt this
  have hD : core_idle p = idle_jiffies p := by
    have : idle_jiffies p < 2 ^ 64 := by
      unfold idle_jiffies total_jiffies at *
      omega
    exact Nat.mod_eq_of_lt this
  simp only [core_usage, hA, hB, hC, hD]
  by_cases ht : total_jiffies curr - total_jiffies p = 0
  · simp [ht]
  · have htpos : 0 < total_jiffies curr - total_jiffies p := Nat.pos_of_ne_zero ht
    rw [if_pos htpos, if_neg ht]
    have hw : wsub64 (total_jiffies curr - total_jiffies p)
        (idle_jiffies curr - idle_jiffies p) =
        (total_jiffies curr - total_jiffies p) -
          (idle_jiffies curr - idle_jiffies p) := by
      unfold wsub64
      omega
    rw [hw]
    have hinner : (((total_jiffies curr - total_jiffies p) -
          (idle_jiffies curr - idle_jiffies p) : Nat) : ℚ) /
          ((total_jiffies curr - total_jiffies p : Nat) : ℚ) * 100 =
        100 * (1 - ((idle_jiffies curr - idle_jiffies p : Nat) : ℚ) /
          ((total_jiffies curr - total_jiffies p : Nat) : ℚ)) := by
      have hne : ((total_jiffies curr - total_jiffies p : Nat) : ℚ) ≠ 0 :=
        Nat.cast_ne_zero.mpr ht
      rw [Nat.cast_sub hle]
      field_simp
      ring
    rw [hinner]

/-- The report's `io_errors` field is the list length reduced mod `2 ^ 32`,
directly from the definition (proved on variables, so that instantiating it
at a huge list never evaluates that list). -/
theorem generate_report_io_errors_eq (result : TestResult)
    (io_errors : List String) (d : Nat) :
    (generate_report result io_errors d).io_errors = io_errors.length % 2 ^ 32 :=
  rfl

/- ==================================================================
Claim theorems.
================================================================== -/


theorem allTrue_eq : allTrue = 2 ^ (LIMIT + 1) - 1 := by
  unfold allTrue
  rw [Nat.one_shiftLeft]

theorem testBit_allTrue (b : Nat) : allTrue.testBit b = decide (b ≤ LIMIT) := by
  rw [allTrue_eq, Nat.testBit_two_pow_sub_one]
  simp [Nat.lt_succ_iff]

theorem stride_mask_testBit (p : Nat) :
    ∀ fuel cnt b : Nat, cnt < 2 ^ fuel →
      ((stride_mask p fuel cnt).testBit b = true ↔ ∃ k, k < cnt ∧ b = k * p) := by
  intro fuel
  induction fuel with
  | zero =>
    intro cnt b hcnt
    interval_cases cnt
    simp [stride_mask]
  | succ fuel ih =>
    intro cnt b hcnt
    by_cases h0 : cnt = 0
    · subst h0
      simp [stride_mask]
    · have hm : cnt / 2 < 2 ^ fuel := by
        have h2 : (2 : Nat) ^ (fuel + 1) = 2 * 2 ^ fuel := by ring
        omega
      have hsplit := ih (cnt / 2) b hm
      have hsplit2 := ih (cnt / 2) (b - p * (cnt / 2)) hm
      by_cases hpar : cnt % 2 = 1
      · have hrw : stride_mask p (fuel + 1) cnt =
            (stride_mask p fuel (cnt / 2) |||
              (stride_mask p fuel (cnt / 2) <<< (p * (cnt / 2)))) |||
              (1 <<< (p * (cnt - 1))) := by
          rw [stride_mask, if_neg h0, if_pos hpar]
        rw [hrw, Nat.testBit_or, Nat.testBit_or, Nat.testBit_shiftLeft,
          Nat.one_shiftLeft, Nat.testBit_two_pow]
        simp only [Bool.or_eq_true, Bool.and_eq_true, decide_eq_true_eq,
          hsplit, hsplit2]
        clear hsplit hsplit2
        constructor
        · rintro ((⟨k, hk, rfl⟩ | ⟨hge, ⟨k, hk, hkeq⟩⟩) | heq)
          · exact ⟨k, by omega, rfl⟩
          · refine ⟨cnt / 2 + k, by omega, ?_⟩
            have hb : b = p * (cnt / 2) + k * p := by omega
            rw [hb, Nat.add_mul, Nat.mul_comm p (cnt / 2)]
          · exact ⟨cnt - 1, by omega, by rw [← heq, Nat.mul_comm]⟩
        · rintro ⟨k, hk, rfl⟩
          by_cases hk1 : k < cnt / 2
          · exact Or.inl (Or.inl ⟨k, hk1, rfl⟩)
          · by_cases hk2 : k < 2 * (cnt / 2)
            · refine Or.inl (Or.inr ⟨?_, ⟨k - cnt / 2, by omega, ?_⟩⟩)
              · show p * (cnt / 2) ≤ k * p
                calc p * (cnt / 2) = (cnt / 2) * p := Nat.mul_comm _ _
                  _ ≤ k * p := Nat.mul_le_mul_right p (by omega)
              · rw [Nat.mul_comm p (cnt / 2), Nat.sub_mul]
            · have hk3 : k = cnt - 1 := by omega
              exact Or.inr (by rw [hk3, Nat.mul_comm])
      · have hrw : stride_mask p (fuel + 1) cnt =
            stride_mask p fuel (cnt / 2) |||
              (stride_mask p fuel (cnt / 2) <<< (p * (cnt / 2))) := by
          rw [stride_mask, if_neg h0, if_neg hpar]
        rw [hrw, Nat.testBit_or, Nat.testBit_shiftLeft]
        simp only [Bool.or_eq_true, Bool.and_eq_true, decide_eq_true_eq,
          hsplit, hsplit2]
        clear hsplit hsplit2
        constructor
        · rintro (⟨k, hk, rfl⟩ | ⟨hge, ⟨k, hk, hkeq⟩⟩)
          · exact ⟨k, by omega, rfl⟩
          · refine ⟨cnt / 2 + k, by omega, ?_⟩
            have hb : b = p * (cnt / 2) + k * p := by omega
            rw [hb, Nat.add_mul, Nat.mul_comm p (cnt / 2)]
        · rintro ⟨k, hk, rfl⟩
          by_cases hk1 : k < cnt / 2
          · exact Or.inl ⟨k, hk1, rfl⟩
          · refine Or.inr ⟨?_, ⟨k - cnt / 2, by omega, ?_⟩⟩
            · show p * (cnt / 2) ≤ k * p
              calc p * (cnt / 2) = (cnt / 2) * p := Nat.mul_comm _ _
                _ ≤ k * p := Nat.mul_le_mul_right p (by omega)
            · rw [Nat.mul_comm p (cnt / 2), Nat.sub_mul]

theorem stride_mask_testBit_eq (p fuel cnt b : Nat) (h : cnt < 2 ^ fuel) :
    (stride_mask p fuel cnt).testBit b = decide (∃ k, k < cnt ∧ b = k * p) := by
  have hiff := stride_mask_testBit p fuel cnt b h
  cases hx : (stride_mask p fuel cnt).testBit b with
  | false =>
    symm
    rw [decide_eq_false_iff_not]
    intro hex
    rw [hx] at hiff
    exact absurd (hiff.mpr hex) (by simp)
  | true =>
    symm
    rw [decide_eq_true_eq]
    rw [hx] at hiff
    exact hiff.mp rfl

theorem and_allTrue_of_lt (a : Nat) (ha : a < 2 ^ (LIMIT + 1)) :
    a &&& allTrue = a := by
  rw [allTrue_eq, Nat.and_pow_two_sub_one_eq_mod, Nat.mod_eq_of_lt ha]

theorem testBit_allTrue_xor (M b : Nat)
    (hM : ∀ b', M.testBit b' = true → b' ≤ LIMIT) :
    (allTrue ^^^ M).testBit b = (decide (b ≤ LIMIT) && !M.testBit b) := by
  rw [Nat.testBit_xor, testBit_allTrue]
  by_cases hb : b ≤ LIMIT
  · simp [hb]
  · have hfalse : M.testBit b = false := by
      cases h : M.testBit b
      · rfl
      · exact absurd (hM b h) hb
    simp [hb, hfalse]

/-- The number of inner-loop iterations of `mark_multiples` starting at
`j`. -/

theorem markCnt_le (i j : Nat) : markCnt i j ≤ LIMIT + 1 := by
  unfold markCnt
  split
  · have h1 : (LIMIT - j) / i ≤ LIMIT - j := Nat.div_le_self _ _
    omega
  · omega

theorem markCnt_bits_le (i j : Nat) (hj : j ≤ LIMIT) :
    ∀ k, k < markCnt i j → j + k * i ≤ LIMIT := by
  intro k hk
  unfold markCnt at hk
  rw [if_pos hj] at hk
  have h1 : k ≤ (LIMIT - j) / i := by omega
  have h2 : k * i ≤ (LIMIT - j) / i * i := Nat.mul_le_mul_right i h1
  have h3 : (LIMIT - j) / i * i ≤ LIMIT - j := Nat.div_mul_le_self _ _
  omega

theorem markCnt_step (i j : Nat) (hi : 0 < i) (hj : j ≤ LIMIT) :
    markCnt i (j + i) = markCnt i j - 1 := by
  unfold markCnt
  by_cases h2 : j + i ≤ LIMIT
  · rw [if_pos h2, if_pos hj]
    have hd : LIMIT - j = (LIMIT - (j + i)) + i := by omega
    rw [hd, Nat.add_div_right _ hi]
    exact (Nat.succ_sub_one _).symm
  · rw [if_neg h2, if_pos hj]
    have hlt : LIMIT - j < i := by omega
    rw [Nat.div_eq_of_lt hlt]

theorem stride_shift_bits_le (i j cnt b : Nat) (hcnt : cnt < 2 ^ 17)
    (hbits : ∀ k, k < cnt → j + k * i ≤ LIMIT)
    (hb : ((stride_mask i 17 cnt <<< j).testBit b) = true) : b ≤ LIMIT := by
  rw [Nat.testBit_shiftLeft, Bool.and_eq_true, decide_eq_true_eq,
    stride_mask_testBit_eq i 17 cnt (b - j) hcnt, decide_eq_true_eq] at hb
  obtain ⟨hge, k, hk, hkeq⟩ := hb
  have := hbits k hk
  omega

theorem LIMIT_eq : LIMIT = 100000 := rfl

theorem clear_step_mask (i j cnt a : Nat) (hi : 0 < i) (hj : j ≤ LIMIT)
    (hcnt : 0 < cnt) (hcnt17 : cnt < 2 ^ 17)
    (hbits : ∀ k, k < cnt → j + k * i ≤ LIMIT) :
    clear_bit a j &&&
        (allTrue ^^^ (stride_mask i 17 (cnt - 1) <<< (j + i))) =
      a &&& (allTrue ^^^ (stride_mask i 17 cnt <<< j)) := by
  unfold clear_bit
  rw [Nat.and_assoc]
  apply Nat.eq_of_testBit_eq
  intro b
  rw [Nat.testBit_and, Nat.testBit_and, Nat.testBit_and]
  congr 1
  have hM1 : ∀ b', (1 <<< j : Nat).testBit b' = true → b' ≤ LIMIT := by
    intro b' hb'
    rw [Nat.one_shiftLeft, Nat.testBit_two_pow, decide_eq_true_eq] at hb'
    omega
  have hM2 : ∀ b', ((stride_mask i 17 (cnt - 1) <<< (j + i)).testBit b') = true →
      b' ≤ LIMIT := by
    intro b' hb'
    refine stride_shift_bits_le i (j + i) (cnt - 1) b' (by omega) ?_ hb'
    intro k hk
    have h2 := hbits (k + 1) (by omega)
    have h3 : (k + 1) * i = k * i + i := Nat.succ_mul k i
    omega
  have hM3 : ∀ b', ((stride_mask i 17 cnt <<< j).testBit b') = true →
      b' ≤ LIMIT := fun b' hb' => stride_shift_bits_le i j cnt b' hcnt17 hbits hb'
  rw [testBit_allTrue_xor _ b hM1, testBit_allTrue_xor _ b hM2,
    testBit_allTrue_xor _ b hM3]
  by_cases hbL : b ≤ LIMIT
  · have hd : decide (b ≤ LIMIT) = true := decide_eq_true hbL
    rw [hd]
    simp only [Bool.true_and]
    rw [← Bool.not_or]
    congr 1
    rw [Nat.one_shiftLeft, Nat.testBit_two_pow, Nat.testBit_shiftLeft,
      Nat.testBit_shiftLeft,
      stride_mask_testBit_eq i 17 (cnt - 1) (b - (j + i)) (by omega),
      stride_mask_testBit_eq i 17 cnt (b - j) hcnt17]
    rw [Bool.eq_iff_iff]
    simp only [Bool.or_eq_true, Bool.and_eq_true, decide_eq_true_eq]
    constructor
    · rintro (rfl | ⟨hge, k, hk, hkeq⟩)
      · exact ⟨le_refl j, 0, hcnt, by omega⟩
      · refine ⟨by omega, k + 1, by omega, ?_⟩
        have h3 : (k + 1) * i = k * i + i := Nat.succ_mul k i
        omega
    · rintro ⟨hge, k, hk, hkeq⟩
      obtain _ | k := k
      · left
        omega
      · right
        have h3 : (k + 1) * i = k * i + i := Nat.succ_mul k i
        refine ⟨by omega, k, by omega, by omega⟩
  · simp [hbL]

theorem mark_multiples_spec (i : Nat) (hi : 0 < i) :
    ∀ fuel j a, a < 2 ^ (LIMIT + 1) → markCnt i j ≤ fuel →
      mark_multiples i fuel j a =
        a &&& (allTrue ^^^ (stride_mask i 17 (markCnt i j) <<< j)) := by
  intro fuel
  induction fuel with
  | zero =>
    intro j a ha hle
    have h0 : markCnt i j = 0 := by omega
    show a = _
    rw [h0]
    have hsm : stride_mask i 17 0 = 0 := by
      rw [stride_mask]
      simp
    rw [hsm, Nat.zero_shiftLeft, Nat.xor_zero, and_allTrue_of_lt a ha]
  | succ fuel ih =>
    intro j a ha hle
    by_cases hj : j ≤ LIMIT
    · have hcnt1 : 0 < markCnt i j := by
        unfold markCnt
        rw [if_pos hj]
        exact Nat.succ_pos _
      have hstep : mark_multiples i (fuel + 1) j a =
          mark_multiples i fuel (j + i) (clear_bit a j) := by
        rw [mark_multiples, if_pos hj]
      rw [hstep]
      have hclear : clear_bit a j < 2 ^ (LIMIT + 1) :=
        lt_of_le_of_lt Nat.and_le_left ha
      have hle' : markCnt i (j + i) ≤ fuel := by
        rw [markCnt_step i j hi hj]
        omega
      rw [ih (j + i) (clear_bit a j) hclear hle', markCnt_step i j hi hj]
      refine clear_step_mask i j (markCnt i j) a hi hj hcnt1 ?_
        (markCnt_bits_le i j hj)
      have h1 := markCnt_le i j
      have h2 : LIMIT + 1 < 2 ^ 17 := by
        rw [LIMIT_eq]
        norm_num
      omega
    · have h0 : markCnt i j = 0 := by
        unfold markCnt
        rw [if_neg hj]
      have hstep : mark_multiples i (fuel + 1) j a = a := by
        rw [mark_multiples, if_neg hj]
      rw [hstep, h0]
      have hsm : stride_mask i 17 0 = 0 := by
        rw [stride_mask]
        simp
      rw [hsm, Nat.zero_shiftLeft, Nat.xor_zero, and_allTrue_of_lt a ha]

theorem sieve_loop_eq_fast :
    ∀ fuel i a, 2 ≤ i → a < 2 ^ (LIMIT + 1) →
      sieve_loop fuel i a = sieve_loop_fast fuel i a := by
  intro fuel
  induction fuel with
  | zero =>
    intro i a _ _
    rfl
  | succ fuel ih =>
    intro i a hi ha
    rw [sieve_loop, sieve_loop_fast]
    by_cases hguard : i * i ≤ LIMIT
    · rw [if_pos hguard, if_pos hguard]
      by_cases htb : a.testBit i
      · have heq : mark_multiples i (LIMIT + 1) (i * i) a = clear_multiples i a := by
          rw [mark_multiples_spec i (by omega) (LIMIT + 1) (i * i) a ha
            (markCnt_le i (i * i))]
          have hc : markCnt i (i * i) = (LIMIT - i * i) / i + 1 := by
            unfold markCnt
            rw [if_pos hguard]
          rw [hc]
          rfl
        rw [if_pos htb, if_pos htb, heq]
        have hcm : clear_multiples i a < 2 ^ (LIMIT + 1) := by
          refine lt_of_le_of_lt ?_ ha
          unfold clear_multiples
          exact Nat.and_le_left
        exact ih (i + 1) _ (by omega) hcm
      · rw [if_neg htb, if_neg htb]
        exact ih (i + 1) a (by omega) ha
    · rw [if_neg hguard, if_neg hguard]

theorem count_set_bits_zero : count_set_bits 0 = 0 := by
  rw [count_set_bits]
  simp

theorem count_set_bits_bit (b y : Nat) (hb : b < 2) :
    count_set_bits (b + 2 * y) = b + count_set_bits y := by
  rw [count_set_bits]
  split
  · rename_i h
    have hb0 : b = 0 := by omega
    have hy0 : y = 0 := by omega
    subst hb0
    subst hy0
    rw [count_set_bits_zero]
  · rename_i h
    have h1 : (b + 2 * y) % 2 = b := by omega
    have h2 : (b + 2 * y) / 2 = y := by omega
    rw [h1, h2]

theorem count_split (m : Nat) :
    ∀ n : Nat, count_set_bits n =
      count_set_bits (n / 2 ^ m) + count_set_bits (n % 2 ^ m) := by
  induction m with
  | zero =>
    intro n
    simp [Nat.mod_one, count_set_bits_zero]
  | succ m ih =>
    intro n
    by_cases h0 : n = 0
    · subst h0
      simp [count_set_bits_zero]
    · have e1 : count_set_bits n = n % 2 + count_set_bits (n / 2) := by
        rw [count_set_bits]
        rw [dif_neg h0]
      have e2 : n / 2 / 2 ^ m = n / 2 ^ (m + 1) := by
        rw [Nat.div_div_eq_div_mul, pow_succ, Nat.mul_comm (2 ^ m) 2]
      have hpos : 0 < (2 : Nat) ^ m := Nat.pow_pos (by norm_num)
      have hdecomp : n = (n % 2 + 2 * (n / 2 % 2 ^ m)) +
          2 * 2 ^ m * (n / 2 / 2 ^ m) := by
        have b1 : 2 ^ m * (n / 2 / 2 ^ m) + n / 2 % 2 ^ m = n / 2 :=
          Nat.div_add_mod (n / 2) (2 ^ m)
        have c1 : 2 * (n / 2) + n % 2 = n := Nat.div_add_mod n 2
        calc n = 2 * (n / 2) + n % 2 := c1.symm
          _ = 2 * (2 ^ m * (n / 2 / 2 ^ m) + n / 2 % 2 ^ m) + n % 2 := by
              rw [b1]
          _ = (n % 2 + 2 * (n / 2 % 2 ^ m)) + 2 * 2 ^ m * (n / 2 / 2 ^ m) := by
              ring
      have hlt : n % 2 + 2 * (n / 2 % 2 ^ m) < 2 * 2 ^ m := by
        have hm1 : n / 2 % 2 ^ m < 2 ^ m := Nat.mod_lt _ hpos
        have hm2 : n % 2 < 2 := Nat.mod_lt _ (by norm_num)
        omega
      have e3 : n % 2 ^ (m + 1) = n % 2 + 2 * (n / 2 % 2 ^ m) := by
        calc n % 2 ^ (m + 1) = n % (2 * 2 ^ m) := by
              rw [pow_succ, Nat.mul_comm (2 ^ m) 2]
          _ = (n % 2 + 2 * (n / 2 % 2 ^ m)) := by
              conv_lhs => rw [hdecomp]
              rw [Nat.add_mul_mod_self_left]
              exact Nat.mod_eq_of_lt hlt
      have e4 : count_set_bits (n % 2 ^ (m + 1)) =
          n % 2 + count_set_bits (n / 2 % 2 ^ m) := by
        rw [e3]
        exact count_set_bits_bit (n % 2) (n / 2 % 2 ^ m) (Nat.mod_lt _ (by norm_num))
      rw [e1, ih (n / 2), e2, e4]
      omega

theorem count_eq_pop_tree : ∀ k n : Nat, n < 2 ^ 2 ^ k →
    count_set_bits n = pop_tree k n := by
  intro k
  induction k with
  | zero =>
    intro n hn
    have h2 : n < 2 := by
      have : (2 : Nat) ^ 2 ^ 0 = 2 := by norm_num
      omega
    interval_cases n
    · rw [count_set_bits_zero]
      rfl
    · rw [count_set_bits]
      norm_num
      rw [count_set_bits_zero]
      decide
  | succ k ih =>
    intro n hn
    have hpos : 0 < (2 : Nat) ^ 2 ^ k := Nat.pow_pos (by norm_num)
    have hsq : (2 : Nat) ^ 2 ^ (k + 1) = 2 ^ 2 ^ k * 2 ^ 2 ^ k := by
      rw [← pow_add]
      congr 1
      rw [pow_succ]
      omega
    have hdiv : n / 2 ^ 2 ^ k < 2 ^ 2 ^ k := by
      rw [Nat.div_lt_iff_lt_mul hpos]
      rw [hsq] at hn
      exact hn
    have hmod : n % 2 ^ 2 ^ k < 2 ^ 2 ^ k := Nat.mod_lt _ hpos
    have hshr : n >>> 2 ^ k = n / 2 ^ 2 ^ k := Nat.shiftRight_eq_div_pow n (2 ^ k)
    have hand : n &&& ((1 <<< 2 ^ k) - 1) = n % 2 ^ 2 ^ k := by
      rw [Nat.one_shiftLeft, Nat.and_pow_two_sub_one_eq_mod]
    rw [pop_tree, hshr, hand, ← ih (n / 2 ^ 2 ^ k) hdiv, ← ih (n % 2 ^ 2 ^ k) hmod]
    exact count_split (2 ^ k) n

theorem sieve_loop_fast_le : ∀ fuel i a, sieve_loop_fast fuel i a ≤ a := by
  intro fuel
  induction fuel with
  | zero =>
    intro i a
    exact le_rfl
  | succ fuel ih =>
    intro i a
    rw [sieve_loop_fast]
    split
    · split
      · refine le_trans (ih (i + 1) _) ?_
        unfold clear_multiples
        exact Nat.and_le_left
      · exact ih (i + 1) a
    · exact le_rfl

theorem run_prime_stress_eq_fast :
    run_prime_stress =
      (pop_tree 17 (sieve_loop_fast 317 2 (clear_bit (clear_bit allTrue 0) 1)) ==
        9592) := by
  have h0 : run_prime_stress =
      (count_set_bits (sieve_loop 317 2 (clear_bit (clear_bit allTrue 0) 1)) ==
        9592) := rfl
  rw [h0]
  have hpos : 0 < (2 : Nat) ^ (LIMIT + 1) := Nat.pow_pos (by norm_num)
  have ha : clear_bit (clear_bit allTrue 0) 1 < 2 ^ (LIMIT + 1) := by
    have h1 : clear_bit (clear_bit allTrue 0) 1 ≤ allTrue :=
      le_trans Nat.and_le_left Nat.and_le_left
    have h2 : allTrue < 2 ^ (LIMIT + 1) := by
      rw [allTrue_eq]
      omega
    omega
  rw [sieve_loop_eq_fast 317 2 _ (le_refl 2) ha]
  have hb : sieve_loop_fast 317 2 (clear_bit (clear_bit allTrue 0) 1) <
      2 ^ 2 ^ 17 := by
    have h1 := sieve_loop_fast_le 317 2 (clear_bit (clear_bit allTrue 0) 1)
    have h2 : (2 : Nat) ^ (LIMIT + 1) ≤ 2 ^ 2 ^ 17 := by
      apply Nat.pow_le_pow_right (by norm_num)
      rw [LIMIT_eq]
      norm_num
    omega
  rw [count_eq_pop_tree 17 _ hb]

set_option maxRecDepth 100000 in
/-- Claim C2 (confirmed): `ThrottleStatus::from_raw` is a pure bitmask
decode: for every raw value, bits 0-3 give the four "currently active"
flags and bits 16-19 the four "has occurred since boot" flags (and the raw
value is kept); raw value `1` yields `under_voltage_now = true` with all
seven other flags false; a raw value assembling any combination of bits
16-19 only yields all four "now" flags false and exactly the corresponding
"occurred" flags true. -/
theorem C2_throttle_decode_pure_bitmask :
    (∀ raw : Nat,
      (ThrottleStatus.from_raw raw).under_voltage_now = raw.testBit 0 ∧
      (ThrottleStatus.from_raw raw).freq_capped_now = raw.testBit 1 ∧
      (ThrottleStatus.from_raw raw).throttled_now = raw.testBit 2 ∧
      (ThrottleStatus.from_raw raw).soft_temp_limit_now = raw.testBit 3 ∧
      (ThrottleStatus.from_raw raw).under_voltage_occurred = raw.testBit 16 ∧
      (ThrottleStatus.from_raw raw).freq_capped_occurred = raw.testBit 17 ∧
      (ThrottleStatus.from_raw raw).throttled_occurred = raw.testBit 18 ∧
      (ThrottleStatus.from_raw raw).soft_temp_limit_occurred = raw.testBit 19 ∧
      (ThrottleStatus.from_raw raw).raw_value = raw) ∧
    (ThrottleStatus.from_raw 1 =
      { under_voltage_now := true, freq_capped_now := false,
        throttled_now := false, soft_temp_limit_now := false,
        under_voltage_occurred := false, freq_capped_occurred := false,
        throttled_occurred := false, soft_temp_limit_occurred := false,
        raw_value := 1 }) ∧
    (∀ b16 b17 b18 b19 : Bool,
      ThrottleStatus.from_raw
          (2 ^ 16 * b16.toNat + 2 ^ 17 * b17.toNat +
            2 ^ 18 * b18.toNat + 2 ^ 19 * b19.toNat) =
        { under_voltage_now := false, freq_capped_now := false,
          throttled_now := false, soft_temp_limit_now := false,
          under_voltage_occurred := b16, freq_capped_occurred := b17,
          throttled_occurred := b18, soft_temp_limit_occurred := b19,
          raw_value := 2 ^ 16 * b16.toNat + 2 ^ 17 * b17.toNat +
            2 ^ 18 * b18.toNat + 2 ^ 19 * b19.toNat }) := by
  refine ⟨fun raw => ?_, by decide, ?_⟩
  · simp only [ThrottleStatus.from_raw, land_one_shiftLeft_bne_zero]
    exact ⟨trivial, trivial, trivial, trivial, trivial, trivial, trivial,
      trivial, trivial⟩
  · intro b16 b17 b18 b19
    cases b16 <;> cases b17 <;> cases b18 <;> cases b19 <;> decide

/-- Claim C3, counterexample: on the tick sequence `[0x1]` the raw value
`1` differs from the previous value `0` and has a "currently active" flag
set (bit 0, under-voltage), so the claim's rule ("counted exactly when the
raw value differs and at least one of bits 0-3 is set") demands one counted
throttle event, but the code counts none: the under-voltage bit feeds the
separate under-voltage counter instead. -/
theorem C3_throttle_event_cex :
    (ThrottleStatus.from_raw 1).has_any_current_issue = true ∧
    (1 : Nat) ≠ 0 ∧
    (run_throttle_ticks [1]).throttle_events = 0 ∧
    (run_throttle_ticks [1]).under_voltage_events = 1 := by
  decide

/-- Claim C3 (corrected): a throttle event is counted exactly when the raw
value differs from the previous tick's value and at least one of bits 1-3
(frequency-capped, throttled, soft-limit) is set in the new value — the
under-voltage bit 0 instead feeds the separate under-voltage event counter
under the same transition rule; in particular `[0x0, 0x4, 0x4, 0x0]` yields
exactly one counted throttle event, and a sequence whose values never set
bits 1-3 (so in particular transitions driven solely by the historical bits
16-19) yields none. -/
theorem C3_throttle_event_transitions :
    (∀ raws : List Nat,
      (run_throttle_ticks raws).throttle_events =
        (tick_transitions raws).countP throttle_transition_counted ∧
      (run_throttle_ticks raws).under_voltage_events =
        (tick_transitions raws).countP under_voltage_transition_counted) ∧
    (run_throttle_ticks [0x0, 0x4, 0x4, 0x0]).throttle_events = 1 ∧
    (∀ raws : List Nat, (∀ r ∈ raws, r &&& 0xE = 0) →
      (run_throttle_ticks raws).throttle_events = 0) := by
  refine ⟨fun raws => ?_, by decide, fun raws h => ?_⟩
  · have := run_throttle_fold_characterization raws initialThrottleEventState
    simpa [run_throttle_ticks, tick_transitions, initialThrottleEventState] using this
  · have hchar := (run_throttle_fold_characterization raws initialThrottleEventState).1
    simp only [run_throttle_ticks, initialThrottleEventState] at hchar ⊢
    rw [hchar, Nat.zero_add, List.countP_eq_zero]
    intro p hp
    have hmem : p.2 ∈ raws := by
      have := List.of_mem_zip hp
      exact this.2
    have hand := h p.2 hmem
    have hbits : ∀ i, (p.2.testBit i && (14 : Nat).testBit i) = false := by
      intro i
      rw [← Nat.testBit_and, hand]
      exact Nat.zero_testBit i
    have h14 : (14 : Nat).testBit 1 = true ∧ (14 : Nat).testBit 2 = true ∧
        (14 : Nat).testBit 3 = true := by decide
    have h1 : p.2.testBit 1 = false := by
      have := hbits 1; rwa [h14.1, Bool.and_true] at this
    have h2 : p.2.testBit 2 = false := by
      have := hbits 2; rwa [h14.2.1, Bool.and_true] at this
    have h3 : p.2.testBit 3 = false := by
      have := hbits 3; rwa [h14.2.2, Bool.and_true] at this
    simp [throttle_transition_counted, h1, h2, h3]

/-- Witness for C3's amended theorem: its third conjunct applied to the
concrete sequence `[0x10000, 0x50000]` (historical bits only), which
produces zero throttle events. -/
theorem C3_throttle_event_witness :
    (run_throttle_ticks [0x10000, 0x50000]).throttle_events = 0 :=
  C3_throttle_event_transitions.2.2 [0x10000, 0x50000] (by decide)

/-- Claim C1, counterexample: a `TestResult` whose storage error counter is
zero together with a non-empty I/O-error line list yields
`nvme_stress_passed = false`, so the storage category is *not* marked
passed "if and only if its error counter is exactly zero". -/
theorem C1_generate_report_cex :
    cleanResult.nvme_errors = 0 ∧
    (generate_report cleanResult ["io err"] 60).nvme_stress_passed = false := by
  constructor
  · rfl
  · rfl

/-- Claim C1 (corrected): `generate_report` marks the compute, memory and
video categories passed iff their error counters are exactly zero, but
marks storage passed iff its error counter is zero *and* the externally
supplied I/O-error line list is empty; the overall verdict is passed iff
all four error counters are zero, the I/O-error list is empty, the throttle
event count is zero and the under-voltage event count is zero — which
coincides with the claim's overall condition. -/
theorem C1_generate_report_verdict (result : TestResult) (io_errors : List String) :
    ((generate_report result io_errors 60).cpu_stress_passed = true ↔
      result.cpu_errors = 0) ∧
    ((generate_report result io_errors 60).memory_stress_passed = true ↔
      result.memory_errors = 0) ∧
    ((generate_report result io_errors 60).nvme_stress_passed = true ↔
      (result.nvme_errors = 0 ∧ io_errors = [])) ∧
    ((generate_report result io_errors 60).video_stress_passed = true ↔
      result.video_errors = 0) ∧
    ((generate_report result io_errors 60).passed = true ↔
      (result.cpu_errors = 0 ∧ result.memory_errors = 0 ∧
        result.nvme_errors = 0 ∧ result.video_errors = 0 ∧ io_errors = [] ∧
        result.throttle_events = 0 ∧ result.under_voltage_events = 0)) := by
  simp only [generate_report, Bool.and_eq_true, beq_iff_eq, List.isEmpty_iff]
  refine ⟨trivial, trivial, trivial, trivial, ?_⟩
  constructor
  · rintro ⟨⟨⟨⟨⟨h1, h2⟩, h3, h4⟩, h5⟩, h6⟩, h7⟩
    exact ⟨h1, h2, h3, h5, h4, h6, h7⟩
  · rintro ⟨h1, h2, h3, h5, h4, h6, h7⟩
    exact ⟨⟨⟨⟨⟨h1, h2⟩, h3, h4⟩, h5⟩, h6⟩, h7⟩

/-- Witness for C1's amended theorem: at the all-zero result and the empty
I/O-error list the overall verdict is passed. -/
theorem C1_generate_report_witness :
    (generate_report cleanResult [] 60).passed = true :=
  (C1_generate_report_verdict cleanResult []).2.2.2.2.mpr
    ⟨rfl, rfl, rfl, rfl, rfl, rfl, rfl⟩

/-- Claim C10, counterexample: `generate_report` stores the I/O-error count
as `io_errors.len() as u32`, which truncates modulo `2 ^ 32`; a list of
`2 ^ 32` lines is reported as `0` I/O errors, not as its length. -/
theorem C10_io_error_truncation_cex :
    (generate_report cleanResult (List.replicate (2 ^ 32) "e") 60).io_errors ≠
      (List.replicate (2 ^ 32) "e").length := by
  rw [generate_report_io_errors_eq, List.length_replicate]
  norm_num

/-- Claim C10 (corrected): for every `TestResult` and I/O-error line list,
the report's `smart_warnings` is `0` regardless of any SMART state, its
`io_errors` is the list's length reduced modulo `2 ^ 32` (so equal to the
length whenever the length is below `2 ^ 32`, which holds for any list the
program can build), and the supplied `TestResult` is not modified — in this
pure embedding, the fields the report copies from it are returned
unchanged. -/
theorem C10_report_io_and_smart (result : TestResult) (io_errors : List String) :
    (generate_report result io_errors 60).smart_warnings = 0 ∧
    (generate_report result io_errors 60).io_errors = io_errors.length % 2 ^ 32 ∧
    (io_errors.length < 2 ^ 32 →
      (generate_report result io_errors 60).io_errors = io_errors.length) ∧
    (generate_report result io_errors 60).duration_secs = result.duration_secs ∧
    (generate_report result io_errors 60).max_cpu_temp = result.max_cpu_temp ∧
    (generate_report result io_errors 60).avg_cpu_temp = result.avg_cpu_temp ∧
    (generate_report result io_errors 60).max_nvme_temp = result.max_nvme_temp ∧
    (generate_report result io_errors 60).throttle_events = result.throttle_events ∧
    (generate_report result io_errors 60).under_voltage_events =
      result.under_voltage_events := by
  refine ⟨rfl, rfl, fun h => ?_, rfl, rfl, rfl, rfl, rfl, rfl⟩
  exact (generate_report_io_errors_eq result io_errors 60).trans (Nat.mod_eq_of_lt h)

/-- Witness for C10's amended theorem: at the all-zero result and a
two-line I/O-error list, the reported count is the length, `2`. -/
theorem C10_report_io_witness :
    (generate_report cleanResult ["a", "b"] 60).io_errors = 2 :=
  (C10_report_io_and_smart cleanResult ["a", "b"]).2.2.1 (by norm_num)

/-- Claim C4, counterexample: the one-core snapshot pair
`(snapIdentical, snapIdentical)` has identical per-core totals and zero
idle-delta, so the claim demands 100% for its core, yet `calculate_usage`
reports 0% (the `total_diff = 0` branch) — as the claim's own "identical
snapshots report 0%" sentence also demands, so the claim contradicts
itself at this input. -/
theorem C4_calculate_usage_cex :
    CpuStatSnapshot.calculate_usage snapIdentical snapIdentical = [0] ∧
    total_jiffies ⟨5, 0, 0, 0, 0, 0, 0⟩ - total_jiffies ⟨5, 0, 0, 0, 0, 0, 0⟩ = 0 ∧
    idle_jiffies ⟨5, 0, 0, 0, 0, 0, 0⟩ - idle_jiffies ⟨5, 0, 0, 0, 0, 0, 0⟩ = 0 ∧
    (0 : ℚ) ≠ 100 := by
  refine ⟨?_, rfl, rfl, by norm_num⟩
  decide

/-- Claim C4 (corrected): each reported entry is `core_usage` of the core
against its same-index predecessor core; for wrap-free counters whose
saturating idle-delta is at most the saturating total-delta, `core_usage`
is `100 * (1 - idle_delta / total_delta)` clamped to `[0, 100]` and is `0`
when the total-delta is zero; consequently a zero idle-delta with a
*positive* total-delta reports 100%, and two identical snapshots report 0%
for every core. -/
theorem C4_calculate_usage_formula :
    (∀ (self prev : CpuStatSnapshot) (i : Nat) (curr p : CpuCoreStat),
      self.cores[i]? = some curr → prev.cores[i]? = some p →
      (CpuStatSnapshot.calculate_usage self prev)[i]? = some (core_usage curr p)) ∧
    (∀ curr p : CpuCoreStat,
      total_jiffies curr < 2 ^ 64 → total_jiffies p < 2 ^ 64 →
      idle_jiffies curr - idle_jiffies p ≤ total_jiffies curr - total_jiffies p →
      core_usage curr p =
        if total_jiffies curr - total_jiffies p = 0 then 0
        else
          min (max (100 * (1 - ((idle_jiffies curr - idle_jiffies p : Nat) : ℚ) /
            ((total_jiffies curr - total_jiffies p : Nat) : ℚ))) 0) 100) ∧
    (∀ curr p : CpuCoreStat,
      total_jiffies curr < 2 ^ 64 → total_jiffies p < 2 ^ 64 →
      idle_jiffies curr = idle_jiffies p →
      0 < total_jiffies curr - total_jiffies p →
      core_usage curr p = 100) ∧
    (∀ self : CpuStatSnapshot,
      CpuStatSnapshot.calculate_usage self self =
        List.replicate self.cores.length 0) := by
  refine ⟨?_, core_usage_spec, ?_, ?_⟩
  · intro self prev i curr p hc hp
    unfold CpuStatSnapshot.calculate_usage
    rw [List.getElem?_map, List.getElem?_enum, hc]
    simp [hp]
  · intro curr p h1 h2 hidle htpos
    rw [core_usage_spec curr p h1 h2 (by omega)]
    rw [if_neg (by omega), hidle, Nat.sub_self]
    norm_num
  · intro self
    rw [List.eq_replicate_iff]
    constructor
    · simp [CpuStatSnapshot.calculate_usage]
    · intro b hb
      simp only [CpuStatSnapshot.calculate_usage, List.mem_map] at hb
      obtain ⟨ic, hin, rfl⟩ := hb
      rw [List.mem_enum_iff_getElem?] at hin
      simp only [hin]
      simp [core_usage, Nat.sub_self]

/-- Witness for C4's amended theorem: its 100%-case applied to the concrete
snapshot pair with totals 11 and 6 and equal idle counters, which reports
exactly 100%. -/
theorem C4_calculate_usage_witness :
    core_usage ⟨10, 0, 0, 1, 0, 0, 0⟩ ⟨5, 0, 0, 1, 0, 0, 0⟩ = 100 :=
  C4_calculate_usage_formula.2.2.1 ⟨10, 0, 0, 1, 0, 0, 0⟩ ⟨5, 0, 0, 1, 0, 0, 0⟩
    (by norm_num [total_jiffies]) (by norm_num [total_jiffies]) rfl
    (by norm_num [total_jiffies])

/-- Claim C5, counterexample: with 100 MB of total RAM and 2 configured
threads, each of the two memory threads gets
`allocation_per_thread = 25 MiB`, which the 64-MiB floor raises to 64 MiB,
so the two buffers together commit 128 MiB — more than half of the 100 MB
of total RAM. -/
theorem C5_memory_sizing_cex :
    num_mem_threads 2 = 2 ∧
    alloc_size (allocation_per_thread 100 2) = 64 * 1024 * 1024 ∧
    100 * 1024 * 1024 / 2 <
      num_mem_threads 2 * alloc_size (allocation_per_thread 100 2) := by
  decide

/-- Claim C5 (corrected): every memory thread's buffer, allocated once
before its loop, has size `alloc_size ≥ 64 MiB` (and keeps that size across
all iterations); at most 2 memory threads are spawned; and whenever total
RAM is at least 256 MB (and below the `usize` wrap bound `2 ^ 44` MB), the
sum of the buffer sizes across the spawned memory threads does not exceed
half of total system RAM — for smaller RAM the 64-MiB floor can exceed that
bound, as the counterexample shows. -/
theorem C5_memory_sizing :
    (∀ allocation_bytes : Nat,
      MIN_CHUNK_SIZE ≤ alloc_size allocation_bytes) ∧
    (∀ threads : Nat, num_mem_threads threads ≤ 2) ∧
    (∀ (env : MemStressEnv) (allocation_bytes n : Nat),
      (run_memory_stress env allocation_bytes n).buffer_len =
        alloc_size allocation_bytes) ∧
    (∀ total_mb threads : Nat, 1 ≤ threads → 256 ≤ total_mb →
      total_mb < 2 ^ 44 →
      num_mem_threads threads *
          alloc_size (allocation_per_thread total_mb threads) ≤
        total_mb * 1024 * 1024 / 2) := by
  refine ⟨fun ab => le_max_right ab MIN_CHUNK_SIZE,
    fun threads => min_le_left 2 threads,
    run_memory_stress_buffer_len, ?_⟩
  intro total_mb threads h1 h256 hlt
  have hwrap : wrap64 (total_mb * 1024 * 1024) = total_mb * 1024 * 1024 := by
    unfold wrap64
    omega
  rcases threads with _ | _ | t
  · omega
  · have hapt : allocation_per_thread total_mb 1 =
        total_mb * 1024 * 1024 / 2 := by
      unfold allocation_per_thread num_mem_threads
      rw [hwrap]
      norm_num
    have hmax : alloc_size (allocation_per_thread total_mb 1) =
        total_mb * 1024 * 1024 / 2 := by
      rw [hapt]
      unfold alloc_size MIN_CHUNK_SIZE
      exact Nat.max_eq_left (by omega)
    rw [hmax]
    show min 2 1 * _ ≤ _
    norm_num
  · have hnum : num_mem_threads (t + 2) = 2 :=
      Nat.min_eq_left (by omega)
    have hapt : allocation_per_thread total_mb (t + 2) =
        total_mb * 1024 * 1024 / 4 := by
      unfold allocation_per_thread
      rw [hwrap, hnum, Nat.div_div_eq_div_mul]
    have hmax : alloc_size (allocation_per_thread total_mb (t + 2)) =
        total_mb * 1024 * 1024 / 4 := by
      rw [hapt]
      unfold alloc_size MIN_CHUNK_SIZE
      exact Nat.max_eq_left (by omega)
    rw [hnum, hmax]
    omega

/-- Witness for C5's amended theorem: its sizing bound applied at 16 000 MB
of total RAM and 4 configured threads. -/
theorem C5_memory_sizing_witness :
    num_mem_threads 4 * alloc_size (allocation_per_thread 16000 4) ≤
      16000 * 1024 * 1024 / 2 :=
  C5_memory_sizing.2.2.2 16000 4 (by norm_num) (by norm_num) (by norm_num)

/-- Claim C6 (confirmed): each runner's loop selects at iteration `i` the
oracle with index `i mod len` of its fixed oracle list (DFT, matrix,
prime-sieve, AES for compute; sequential, random, fill/verify, STREAM for
memory; 4K-random, sequential, mixed for storage), increments its
category's error counter by exactly 1 on a failed oracle and by 0 on a
passing one, and proceeds straight to the next iteration; hence each
counter equals the number of failed iterations so far, is monotonically
non-decreasing, and grows by at most 1 per iteration. -/
theorem C6_runner_round_robin :
    (∀ (env : CpuStressEnv) (i : Nat),
      (i % 4 = 0 → cpu_iter_verdict env i = env.dft_ok i) ∧
      (i % 4 = 1 → cpu_iter_verdict env i = env.matrix_ok i) ∧
      (i % 4 = 2 → cpu_iter_verdict env i = run_prime_stress) ∧
      (i % 4 = 3 → cpu_iter_verdict env i = env.aes_ok i)) ∧
    (∀ (env : MemStressEnv) (i : Nat),
      (i % 4 = 0 → mem_iter_verdict env i = env.sequential_ok i) ∧
      (i % 4 = 1 → mem_iter_verdict env i = env.random_ok i) ∧
      (i % 4 = 2 → mem_iter_verdict env i = env.fill_ok i) ∧
      (i % 4 = 3 → mem_iter_verdict env i = env.stream_ok i)) ∧
    (∀ (env : NvmeStressEnv) (i : Nat),
      (i % 3 = 0 → nvme_iter_verdict env i = env.random_4k_ok i) ∧
      (i % 3 = 1 → nvme_iter_verdict env i = env.sequential_io_ok i) ∧
      (i % 3 = 2 → nvme_iter_verdict env i = env.mixed_ok i)) ∧
    (∀ (env : CpuStressEnv) (n : Nat),
      run_cpu_stress env n =
        (List.range n).countP (fun i => !cpu_iter_verdict env i) ∧
      run_cpu_stress env (n + 1) =
        run_cpu_stress env n + (if cpu_iter_verdict env n then 0 else 1)) ∧
    (∀ (env : CpuStressEnv) (n m : Nat), n ≤ m →
      run_cpu_stress env n ≤ run_cpu_stress env m) ∧
    (∀ (env : MemStressEnv) (ab n : Nat),
      (run_memory_stress env ab n).errors =
        (List.range n).countP (fun i => !mem_iter_verdict env i) ∧
      (run_memory_stress env ab (n + 1)).errors =
        (run_memory_stress env ab n).errors +
          (if mem_iter_verdict env n then 0 else 1)) ∧
    (∀ (env : MemStressEnv) (ab n m : Nat), n ≤ m →
      (run_memory_stress env ab n).errors ≤
        (run_memory_stress env ab m).errors) ∧
    (∀ (env : NvmeStressEnv) (c : ErrorCounters) (n : Nat),
      env.create_test_file_ok = true →
      (run_nvme_stress env c n).1.nvme_errors =
        c.nvme_errors +
          (List.range n).countP (fun i => !nvme_iter_verdict env i) ∧
      (run_nvme_stress env c n).2 = n ∧
      nvme_loop_errors env (n + 1) =
        nvme_loop_errors env n + (if nvme_iter_verdict env n then 0 else 1)) ∧
    (∀ (env : NvmeStressEnv) (n m : Nat), n ≤ m →
      nvme_loop_errors env n ≤ nvme_loop_errors env m) := by
  refine ⟨?_, ?_, ?_, ?_, ?_, ?_, ?_, ?_, ?_⟩
  · intro env i
    refine ⟨fun h => ?_, fun h => ?_, fun h => ?_, fun h => ?_⟩
    · unfold cpu_iter_verdict
      rw [if_pos h]
    · unfold cpu_iter_verdict
      rw [if_neg (by omega : ¬(i % 4 = 0)), if_pos h]
    · unfold cpu_iter_verdict
      rw [if_neg (by omega : ¬(i % 4 = 0)), if_neg (by omega : ¬(i % 4 = 1)),
        if_pos h]
    · unfold cpu_iter_verdict
      rw [if_neg (by omega : ¬(i % 4 = 0)), if_neg (by omega : ¬(i % 4 = 1)),
        if_neg (by omega : ¬(i % 4 = 2))]
  · intro env i
    refine ⟨fun h => ?_, fun h => ?_, fun h => ?_, fun h => ?_⟩
    · unfold mem_iter_verdict
      rw [if_pos h]
    · unfold mem_iter_verdict
      rw [if_neg (by omega : ¬(i % 4 = 0)), if_pos h]
    · unfold mem_iter_verdict
      rw [if_neg (by omega : ¬(i % 4 = 0)), if_neg (by omega : ¬(i % 4 = 1)),
        if_pos h]
    · unfold mem_iter_verdict
      rw [if_neg (by omega : ¬(i % 4 = 0)), if_neg (by omega : ¬(i % 4 = 1)),
        if_neg (by omega : ¬(i % 4 = 2))]
  · intro env i
    refine ⟨fun h => ?_, fun h => ?_, fun h => ?_⟩
    · unfold nvme_iter_verdict
      rw [if_pos h]
    · unfold nvme_iter_verdict
      rw [if_neg (by omega : ¬(i % 3 = 0)), if_pos h]
    · unfold nvme_iter_verdict
      rw [if_neg (by omega : ¬(i % 3 = 0)), if_neg (by omega : ¬(i % 3 = 1))]
  · exact fun env n => ⟨run_cpu_stress_eq_countP env n, rfl⟩
  · exact fun env n m h =>
      nat_mono_of_step (run_cpu_stress env) (fun k => Nat.le_add_right _ _) n m h
  · exact fun env ab n => ⟨run_memory_stress_errors_eq_countP env ab n, rfl⟩
  · exact fun env ab n m h =>
      nat_mono_of_step (fun k => (run_memory_stress env ab k).errors)
        (fun k => Nat.le_add_right _ _) n m h
  · intro env c n h
    unfold run_nvme_stress
    rw [h]
    exact ⟨by simp [nvme_loop_errors_eq_countP], rfl, rfl⟩
  · exact fun env n m h =>
      nat_mono_of_step (nvme_loop_errors env) (fun k => Nat.le_add_right _ _) n m h

/-- Witness for C6: monotonicity of the compute counter applied at the
all-pass environment between iterations 3 and 7. -/
theorem C6_runner_round_robin_witness :
    run_cpu_stress cpuEnvAllPass 3 ≤ run_cpu_stress cpuEnvAllPass 7 :=
  C6_runner_round_robin.2.2.2.2.1 cpuEnvAllPass 3 7 (by norm_num)

/-- Claim C8 (confirmed): when the storage runner fails to create its test
file, it increments the storage error counter by exactly 1 and returns
before its loop — zero oracle iterations execute — and the compute, memory
and video counters are left unchanged. -/
theorem C8_nvme_create_failure (env : NvmeStressEnv) (c : ErrorCounters)
    (n : Nat) (h : env.create_test_file_ok = false) :
    run_nvme_stress env c n =
      ({ c with nvme_errors := c.nvme_errors + 1 }, 0) ∧
    (run_nvme_stress env c n).1.cpu_errors = c.cpu_errors ∧
    (run_nvme_stress env c n).1.memory_errors = c.memory_errors ∧
    (run_nvme_stress env c n).1.video_errors = c.video_errors ∧
    (run_nvme_stress env c n).1.nvme_errors = c.nvme_errors + 1 ∧
    (run_nvme_stress env c n).2 = 0 := by
  unfold run_nvme_stress
  rw [h]
  exact ⟨rfl, rfl, rfl, rfl, rfl, rfl⟩

/-- Witness for C8: at the concrete failing environment and zeroed
counters, any shutdown time (here 5) yields exactly one storage error and
zero executed oracle iterations. -/
theorem C8_nvme_create_failure_witness :
    run_nvme_stress nvmeEnvCreateFails countersZero 5 =
      ({ countersZero with nvme_errors := countersZero.nvme_errors + 1 }, 0) :=
  (C8_nvme_create_failure nvmeEnvCreateFails countersZero 5 rfl).1

/-- Claim C9 (confirmed): the random-access oracle passes iff the
accumulated read checksum (the wrapping `u64` sum of the bytes it reads
back) is nonzero or every byte of the written buffer is zero; in
particular a buffer that stays entirely zero — indistinguishable from an
untouched buffer — makes the oracle pass, so "untouched" and "correctly
randomized" are both treated as passing. -/
theorem C9_random_access_oracle :
    (∀ (env : RandomAccessEnv) (buffer : List Nat),
      (run_random_access_stress env buffer).1 = true ↔
        (random_reads_checksum env (random_writes env buffer) ≠ 0 ∨
          ∀ b ∈ random_writes env buffer, b = 0)) ∧
    (∀ (env : RandomAccessEnv) (buffer : List Nat),
      random_reads_checksum env (random_writes env buffer) =
        ((List.range ITERATIONS).map
          (fun k => (random_writes env buffer).getD (env.read_idx k) 0)).sum %
          2 ^ 64) ∧
    (∀ (env : RandomAccessEnv) (buffer : List Nat),
      (∀ b ∈ buffer, b = 0) → (∀ k, env.write_val k % 256 = 0) →
      (run_random_access_stress env buffer).1 = true) := by
  refine ⟨?_, ?_, ?_⟩
  · intro env buffer
    simp [run_random_access_stress, Nat.pos_iff_ne_zero, List.all_eq_true]
  · intro env buffer
    exact random_reads_checksum_eq_sum env (random_writes env buffer)
  · intro env buffer hbuf hval
    have hzero : ∀ b ∈ random_writes env buffer, b = 0 :=
      random_writes_all_zero env buffer hbuf hval
    have hsum : random_reads_checksum env (random_writes env buffer) = 0 := by
      rw [random_reads_checksum_eq_sum]
      have : ((List.range ITERATIONS).map
          (fun k => (random_writes env buffer).getD (env.read_idx k) 0)).sum = 0 := by
        apply List.sum_eq_zero
        intro x hx
        rcases List.mem_map.mp hx with ⟨k, _, rfl⟩
        exact getD_zero_of_all_zero _ hzero _
      rw [this]
      exact Nat.zero_mod _
    simp only [run_random_access_stress]
    rw [hsum]
    simpa [List.all_eq_true] using hzero

/-- Witness for C9: an all-zero two-byte buffer with all-zero writes makes
the oracle pass. -/
theorem C9_random_access_oracle_witness :
    (run_random_access_stress raEnvZero [0, 0]).1 = true :=
  C9_random_access_oracle.2.2 raEnvZero [0, 0] (by decide) (fun _ => rfl)

set_option maxRecDepth 100000 in
set_option maxHeartbeats 4000000 in
/-- C7: `run_prime_stress` sieves the primes below 100000 and passes exactly
when the count equals 9592; the embedded sieve indeed yields 9592, so the
prime-stress oracle always returns true. -/
theorem C7_prime_sieve : run_prime_stress = true := by
  rw [run_prime_stress_eq_fast]
  decide
